import Mathlib

/-!
Shallow embedding of the `RingBuffer` memory component
(`yarl/components/memories/ring_buffer.py`).

The buffer stores one fixed-length array per record field (the
`record_registry` of the source: field name → storage cell), together with
the scalar bookkeeping cells `index`, `size` and — when episode semantics
are enabled — `num_episodes` and the `episode_indices` array.

Tensor primitives are modelled over `List Int`:
* `read_variable(var, indices)` — `gatherField`;
* `scatter_update(var, indices, updates)` — `scatterUpdate` (updates are
  applied in batch order, so a later duplicate destination index wins);
* `tf.range(start, limit) % capacity` — `intRange` followed by `modIndices`
  (`%` on `Int` is the euclidean remainder, which agrees with TensorFlow's
  `floormod` for a positive modulus);
* `tf.reduce_sum` — `List.sum`;
* `tf.boolean_mask(tensor, mask)` — `booleanMask` (a mask entry counts as
  true when it is nonzero);
* a single tensor index `var[i]` with possibly negative `i` — `tfGet`
  (a negative index counts from the end, as in a strided slice);
* a slice `var[a:b]` — `sliceGet` / `sliceAssign` with the strided-slice
  normalisation of negative bounds and clamping to the array length; an
  assignment writes elementwise over the overlap of the slice and the value.

`num_records` is the leading (batch) length of the incoming records, read
off the first field of the batch as in the source.
-/

namespace RingBufferModel

/-- One record field: its name paired with the per-slot values. -/
abbrev Fields := List (String × List Int)

/-- State of a `RingBuffer`: per-field storage plus the bookkeeping cells
allocated in `create_variables`. -/
structure RingBuffer where
  capacity : Nat
  storage : Fields
  index : Nat
  size : Nat
  episode_semantics : Bool
  num_episodes : Int
  episode_indices : List Int
deriving DecidableEq

/-- A freshly constructed buffer: all cells initialize to zero. -/
def freshBuf (schema : List String) (capacity : Nat) (episode_semantics : Bool) : RingBuffer :=
  { capacity := capacity
    storage := schema.map (fun k => (k, List.replicate capacity 0))
    index := 0
    size := 0
    episode_semantics := episode_semantics
    num_episodes := 0
    episode_indices := List.replicate capacity 0 }

/-- `records[key]` lookup in a field dictionary (empty when absent). -/
def fieldOf (records : Fields) (key : String) : List Int :=
  (records.lookup key).getD []

/-- The leading batch length, taken from the first field of the batch
(`tf.shape(records.keys()[0])` in the source reads the batch size off the
first field). -/
def numRecords (records : Fields) : Nat :=
  match records with
  | [] => 0
  | f :: _ => f.2.length

/-- `read_variable(var, indices)`: gather the values at `indices`. -/
def gatherField (arr : List Int) (indices : List Nat) : List Int :=
  indices.map (fun i => arr.getD i 0)

/-- `scatter_update(var, indices, updates)`: indexed writes, applied in
batch order (a later duplicate index overwrites an earlier one). -/
def scatterUpdate (arr : List Int) (indices : List Nat) (updates : List Int) : List Int :=
  (indices.zip updates).foldl (fun a p => a.set p.1 p.2) arr

/-- `tf.range(start, limit)`: the integers of `[start, limit)`. -/
def intRange (start lim : Int) : List Int :=
  (List.range (lim - start).toNat).map (fun i => start + i)

/-- Reduce a list of raw positions modulo the capacity. -/
def modIndices (capacity : Nat) (l : List Int) : List Nat :=
  l.map (fun j => (j % (capacity : Int)).toNat)

/-- A single tensor index `arr[i]`: a negative `i` counts from the end. -/
def tfGet (arr : List Int) (i : Int) : Int :=
  let j := if i < 0 then i + arr.length else i
  arr.getD j.toNat 0

/-- Normalise a strided-slice bound: a negative bound counts from the end,
then the result is clamped to `[0, len]`. -/
def normSliceIdx (len : Nat) (i : Int) : Nat :=
  let j := if i < 0 then i + len else i
  (min (max j 0) (len : Int)).toNat

/-- The slice `arr[a:b]` with strided-slice bound normalisation. -/
def sliceGet (arr : List Int) (a b : Int) : List Int :=
  let a' := normSliceIdx arr.length a
  let b' := normSliceIdx arr.length b
  (arr.drop a').take (b' - a')

/-- Assign `v` into the slice `arr[a:b]`, writing elementwise over the
overlap of the slice and the value. -/
def sliceAssign (arr : List Int) (a b : Int) (v : List Int) : List Int :=
  let a' := normSliceIdx arr.length a
  let b' := normSliceIdx arr.length b
  (List.range arr.length).map (fun i =>
    if a' ≤ i ∧ i < b' ∧ i - a' < v.length then v.getD (i - a') 0 else arr.getD i 0)

/-- `tf.boolean_mask(tensor, mask)`: keep the entries whose mask value is
nonzero (the terminal flags are stored as integers). -/
def booleanMask (tensor : List Nat) (mask : List Int) : List Int :=
  ((tensor.zip mask).filter (fun p => p.2 != 0)).map (fun p => (p.1 : Int))

/-- The `terminal` storage cell (`record_registry['terminal']`). -/
def terminalStorage (st : RingBuffer) : List Int :=
  fieldOf st.storage "terminal"

/-- Destination indices of an insert of `n` records:
`tf.range(index, index + n) % capacity`. -/
def updateIndices (st : RingBuffer) (n : Nat) : List Nat :=
  (List.range n).map (fun i => (st.index + i) % st.capacity)

/-- The terminal flags currently occupying the destination indices of a
batch, read before the scatter-writes (`insert_terminal_slice`). -/
def insertTerminalSlice (st : RingBuffer) (update_indices : List Nat) : List Int :=
  gatherField (terminalStorage st) update_indices

/-- `episodes_in_insert_range` of an insert: the sum of the terminal flags
at the destination indices, pre-overwrite. -/
def evictedEpisodeCount (st : RingBuffer) (records : Fields) : Int :=
  (insertTerminalSlice st (updateIndices st (numRecords records))).sum

/-- `inserted_episodes`: the sum of the terminal flags of the incoming
batch. -/
def insertedEpisodeCount (records : Fields) : Int :=
  (fieldOf records "terminal").sum

/-- `_computation_insert`, in the program order of the source: read
`index`, compute the destination indices, read the terminal slice at those
indices, scatter-write every field, then (when episode semantics are
enabled) update the episode bookkeeping, and finally commit
`index = (index + n) % capacity` and `size = min(size + n, capacity)`. -/
def computation_insert (st : RingBuffer) (records : Fields) : RingBuffer :=
  let num_records := numRecords records
  let update_indices := updateIndices st num_records
  let insert_terminal_slice := insertTerminalSlice st update_indices
  let storage' := st.storage.map (fun kv =>
    (kv.1, scatterUpdate kv.2 update_indices (fieldOf records kv.1)))
  let num_episodes := st.num_episodes
  let episodes_in_insert_range := insert_terminal_slice.sum
  let inserted_episodes := insertedEpisodeCount records
  let num_episode_update := num_episodes - episodes_in_insert_range + inserted_episodes
  let ei1 := sliceAssign st.episode_indices 0 (num_episodes + 1 - episodes_in_insert_range)
    (sliceGet st.episode_indices episodes_in_insert_range (num_episodes + 1))
  let slice_start := num_episodes - episodes_in_insert_range - 1
  let slice_end := num_episode_update + 1
  let ei2 := sliceAssign ei1 slice_start slice_end
    (booleanMask update_indices (fieldOf records "terminal"))
  { st with
    storage := storage'
    num_episodes := if st.episode_semantics then num_episode_update else st.num_episodes
    episode_indices := if st.episode_semantics then ei2 else st.episode_indices
    index := (st.index + num_records) % st.capacity
    size := min (st.size + num_records) st.capacity }

/-- `read_records(indices)`: gather every field at `indices`. -/
def read_records (st : RingBuffer) (indices : List Nat) : Fields :=
  st.storage.map (fun kv => (kv.1, gatherField kv.2 indices))

/-- The circular positions read by `_computation_get_records`:
`tf.range(index - 1 - available, index - 1) % capacity` with
`available = min(size, num_records)`. -/
def recordIndices (st : RingBuffer) (num_records : Nat) : List Nat :=
  let available : Int := min (st.size : Int) (num_records : Int)
  modIndices st.capacity (intRange ((st.index : Int) - 1 - available) ((st.index : Int) - 1))

/-- `_computation_get_records`. -/
def computation_get_records (st : RingBuffer) (num_records : Nat) : Fields :=
  read_records st (recordIndices st num_records)

/-- The circular positions read by `_computation_get_episodes`:
`start = episode_indices[stored - available - 1] + 1`,
`limit = episode_indices[stored - 1]`, extended by the capacity unless
`start < limit`, then `tf.range(start, limit) % capacity`. -/
def episodeIndicesRange (st : RingBuffer) (num_episodes : Nat) : List Nat :=
  let stored := st.num_episodes
  let available := min (num_episodes : Int) stored
  let start := tfGet st.episode_indices (stored - available - 1) + 1
  let lim0 := tfGet st.episode_indices (stored - 1)
  let lim := lim0 + (if start < lim0 then 0 else (st.capacity : Int))
  modIndices st.capacity (intRange start lim)

/-- `_computation_get_episodes`. -/
def computation_get_episodes (st : RingBuffer) (num_episodes : Nat) : Fields :=
  read_records st (episodeIndicesRange st num_episodes)

/-- State-passing form of `sampleRecent`: the computation only performs
`read_variable` calls, so the state it hands back is the input state. -/
def getRecordsOp (st : RingBuffer) (num_records : Nat) : Fields × RingBuffer :=
  (computation_get_records st num_records, st)

/-- State-passing form of the episode query (reads only). -/
def getEpisodesOp (st : RingBuffer) (num_episodes : Nat) : Fields × RingBuffer :=
  (computation_get_episodes st num_episodes, st)

/-- State-passing form of `gather` / `read_records` (reads only). -/
def gatherOp (st : RingBuffer) (indices : List Nat) : Fields × RingBuffer :=
  (read_records st indices, st)

/-- Errors of the public interface (§7 of the design). -/
inductive MemError where
  | EpisodeTrackingDisabled
  | SchemaMismatch
deriving DecidableEq

/-- Modelled from the spec: the public `sampleRecentEpisodes` wrapper is
not under `src/` — the source only contains the graph computation
`_computation_get_episodes`, whose `num_episodes` cell exists only when
episode semantics are enabled (`RingBuffer.__init__`). Per §7, calling it
on a buffer constructed without episode semantics raises
`EpisodeTrackingDisabledError` at call time, with no effect. -/
def sampleRecentEpisodes (st : RingBuffer) (k : Nat) :
    Except MemError Fields × RingBuffer :=
  if st.episode_semantics then (Except.ok (computation_get_episodes st k), st)
  else (Except.error MemError.EpisodeTrackingDisabled, st)

/-- Does every field of the batch carry the same leading length? -/
def sameLeadingLength (records : Fields) : Bool :=
  records.all (fun f => f.2.length == numRecords records)

/-- Does the batch provide every declared schema field, all with one
leading length? -/
def schemaCheck (schema : List String) (records : Fields) : Bool :=
  schema.all (fun f => (records.lookup f).isSome) && sameLeadingLength records

/-- Modelled from the spec: the schema-validation layer of `insert` is not
under `src/` — the source's `_computation_insert` presupposes a well-formed
batch (it indexes `records[key]` for every schema key). Per §7, a batch
that omits a declared field or has mismatched per-field batch length makes
insert raise `SchemaMismatchError` at call time with no partial write. -/
def insertChecked (schema : List String) (st : RingBuffer) (records : Fields) :
    Except MemError Unit × RingBuffer :=
  if schemaCheck schema records then (Except.ok (), computation_insert st records)
  else (Except.error MemError.SchemaMismatch, st)

/-- Run a sequence of insert batches against a fresh buffer. -/
def runInserts (schema : List String) (capacity : Nat) (episode_semantics : Bool)
    (bs : List Fields) : RingBuffer :=
  bs.foldl computation_insert (freshBuf schema capacity episode_semantics)

/-- Total number of records across a sequence of insert batches. -/
def totalRecords (bs : List Fields) : Nat :=
  (bs.map numRecords).sum

/-- The two-field schema of the worked scenarios. -/
def schemaVT : List String := ["value", "terminal"]

/-- Scenario A: capacity 5, insert values `[1,2,3]` (no terminals). -/
def bufA : RingBuffer :=
  computation_insert (freshBuf schemaVT 5 false) [("value", [1, 2, 3]), ("terminal", [0, 0, 0])]

/-- Scenario B: capacity 5, insert the single batch `[1,2,3,4,5,6]`. -/
def bufB : RingBuffer :=
  computation_insert (freshBuf schemaVT 5 false)
    [("value", [1, 2, 3, 4, 5, 6]), ("terminal", [0, 0, 0, 0, 0, 0])]

/-- Scenario C state: capacity 4, values `[1,2,3,4]` with terminal flags
`[0,1,0,1]`, two tracked episodes ending at positions 1 and 3. -/
def bufC : RingBuffer :=
  { capacity := 4
    storage := [("value", [1, 2, 3, 4]), ("terminal", [0, 1, 0, 1])]
    index := 0
    size := 4
    episode_semantics := true
    num_episodes := 2
    episode_indices := [1, 3, 0, 0] }

/-- A follow-up batch for the episode scenarios: values `[5,6]`, the second
record terminal. -/
def recW : Fields := [("value", [5, 6]), ("terminal", [0, 1])]

/-- A batch-collection of two inserts totalling 7 records. -/
def batchesW : List Fields :=
  [[("value", [1, 2, 3]), ("terminal", [0, 0, 0])],
   [("value", [4, 5, 6, 7]), ("terminal", [0, 0, 0, 0])]]

theorem computation_insert_index (s : RingBuffer) (b : Fields) :
    (computation_insert s b).index = (s.index + numRecords b) % s.capacity := rfl

theorem computation_insert_size (s : RingBuffer) (b : Fields) :
    (computation_insert s b).size = min (s.size + numRecords b) s.capacity := rfl

theorem computation_insert_capacity (s : RingBuffer) (b : Fields) :
    (computation_insert s b).capacity = s.capacity := rfl

/-- Folding a sequence of inserts: the size saturates at the capacity and
the index is the total record count added to the start index, modulo the
capacity. -/
theorem foldl_insert_spec (bs : List Fields) (s : RingBuffer)
    (hsz : s.size ≤ s.capacity) (hix : s.index % s.capacity = s.index) :
    (bs.foldl computation_insert s).size = min (s.size + totalRecords bs) s.capacity ∧
    (bs.foldl computation_insert s).index = (s.index + totalRecords bs) % s.capacity ∧
    (bs.foldl computation_insert s).capacity = s.capacity := by
  induction bs generalizing s with
  | nil =>
    refine ⟨?_, ?_, rfl⟩
    · simp only [List.foldl_nil, totalRecords, List.map_nil, List.sum_nil, Nat.add_zero]
      omega
    · simpa [totalRecords] using hix.symm
  | cons b bs ih =>
    have hcap : (computation_insert s b).capacity = s.capacity :=
      computation_insert_capacity s b
    have hsz' : (computation_insert s b).size ≤ (computation_insert s b).capacity := by
      rw [computation_insert_size, hcap]; omega
    have hix' : (computation_insert s b).index % (computation_insert s b).capacity =
        (computation_insert s b).index := by
      rw [computation_insert_index, hcap]
      exact Nat.mod_mod_of_dvd _ dvd_rfl
    obtain ⟨h1, h2, h3⟩ := ih (computation_insert s b) hsz' hix'
    have htot : totalRecords (b :: bs) = numRecords b + totalRecords bs := by
      simp [totalRecords]
    refine ⟨?_, ?_, ?_⟩
    · rw [List.foldl_cons, h1, computation_insert_size, hcap, htot]
      omega
    · rw [List.foldl_cons, h2, computation_insert_index, hcap, htot,
        Nat.mod_add_mod, Nat.add_assoc]
    · rw [List.foldl_cons, h3, hcap]

/-- Every position of `modIndices` lies below the capacity. -/
theorem modIndices_lt (capacity : Nat) (hC : 0 < capacity) (l : List Int) :
    ∀ i ∈ modIndices capacity l, i < capacity := by
  intro i hi
  simp only [modIndices, List.mem_map] at hi
  obtain ⟨j, -, rfl⟩ := hi
  have hne : (capacity : Int) ≠ 0 := by exact_mod_cast Nat.pos_iff_ne_zero.mp hC
  have h1 : 0 ≤ j % (capacity : Int) := Int.emod_nonneg j hne
  have h2 : j % (capacity : Int) < (capacity : Int) :=
    Int.emod_lt_of_pos j (by exact_mod_cast hC)
  omega

/-- C1: the source's sample window `tf.range(index - 1 - available,
index - 1)` starts one slot too early and excludes the most recent record:
at Scenario A (capacity 5, values `[1,2,3]` inserted, `index = 3`,
`size = 3`) `sampleRecent(2)` reads positions `[0, 1]` and returns the
values `[1, 2]`, not the `[2, 3]` the claim requires. -/
theorem C1_sample_recent_window : bufA.index = 3 ∧ bufA.size = 3 ∧
    (computation_get_records bufA 2).lookup "value" = some [1, 2] ∧
    (computation_get_records bufA 2).lookup "value" ≠ some [2, 3] := by decide

/-- C2: at Scenario B (capacity 5, single batch `[1,2,3,4,5,6]`) the
overwrite itself behaves as claimed (`index = 1`, `size = 5`, slot 0 holds
the last writer 6), but the same off-by-one sample window makes
`sampleRecent(5)` return `[6, 2, 3, 4, 5]` instead of the chronological
`[2, 3, 4, 5, 6]`. -/
theorem C2_overwrite_sample : bufB.index = 1 ∧ bufB.size = 5 ∧
    bufB.storage.lookup "value" = some [6, 2, 3, 4, 5] ∧
    (computation_get_records bufB 5).lookup "value" = some [6, 2, 3, 4, 5] ∧
    (computation_get_records bufB 5).lookup "value" ≠ some [2, 3, 4, 5, 6] := by decide

/-- C3: a fresh buffer starts with `index = 0` and `size = 0`; a single
insert of a batch of leading length `n` sets `index` to
`(index + n) % capacity` and `size` to `min(size + n, capacity)`; and after
any sequence of inserts totalling `m` records, `size = min(m, capacity)`
and `index = m % capacity < capacity`. -/
theorem C3_size_index_invariant (capacity : Nat) (hC : 0 < capacity)
    (episode_semantics : Bool) (schema : List String) (bs : List Fields)
    (s : RingBuffer) (b : Fields) :
    (freshBuf schema capacity episode_semantics).index = 0 ∧
    (freshBuf schema capacity episode_semantics).size = 0 ∧
    (computation_insert s b).index = (s.index + numRecords b) % s.capacity ∧
    (computation_insert s b).size = min (s.size + numRecords b) s.capacity ∧
    (runInserts schema capacity episode_semantics bs).size = min (totalRecords bs) capacity ∧
    (runInserts schema capacity episode_semantics bs).index = totalRecords bs % capacity ∧
    (runInserts schema capacity episode_semantics bs).index < capacity := by
  have hfold := foldl_insert_spec bs (freshBuf schema capacity episode_semantics)
    (by simp [freshBuf]) (by simp [freshBuf])
  refine ⟨rfl, rfl, rfl, rfl, ?_, ?_, ?_⟩
  · simpa [runInserts, freshBuf] using hfold.1
  · simpa [runInserts, freshBuf] using hfold.2.1
  · rw [runInserts, hfold.2.1]
    simp only [freshBuf, Nat.zero_add]
    exact Nat.mod_lt _ hC

/-- Witness for C3 at capacity 5 with two batches totalling 7 records. -/
theorem C3_witness : 0 < 5 ∧
    ((freshBuf schemaVT 5 false).index = 0 ∧
     (freshBuf schemaVT 5 false).size = 0 ∧
     (computation_insert bufC recW).index = (bufC.index + numRecords recW) % bufC.capacity ∧
     (computation_insert bufC recW).size = min (bufC.size + numRecords recW) bufC.capacity ∧
     (runInserts schemaVT 5 false batchesW).size = min (totalRecords batchesW) 5 ∧
     (runInserts schemaVT 5 false batchesW).index = totalRecords batchesW % 5 ∧
     (runInserts schemaVT 5 false batchesW).index < 5) :=
  ⟨by decide, C3_size_index_invariant 5 (by decide) false schemaVT batchesW bufC recW⟩

/-- C4: with episode semantics enabled, one insert sets `num_episodes` to
the old count minus the sum of the terminal flags stored at the destination
indices before the overwrite, plus the sum of the terminal flags of the
incoming batch (line `num_episodes - episodes_in_insert_range +
inserted_episodes` of the source). -/
theorem C4_num_episodes_update (st : RingBuffer) (records : Fields)
    (h : st.episode_semantics = true) :
    (computation_insert st records).num_episodes =
      st.num_episodes - evictedEpisodeCount st records + insertedEpisodeCount records := by
  simp [computation_insert, evictedEpisodeCount, h]

/-- Witness for C4 at Scenario C: inserting `[5, 6]` (second record
terminal) into `bufC` evicts the non-terminal slot 0 and the terminal
slot 1. -/
theorem C4_witness : bufC.episode_semantics = true ∧
    (computation_insert bufC recW).num_episodes =
      bufC.num_episodes - evictedEpisodeCount bufC recW + insertedEpisodeCount recW :=
  ⟨rfl, C4_num_episodes_update bufC recW rfl⟩

/-- C5: the episode query's `tf.range(start, limit)` excludes the final
boundary index, and with `available = num_episodes` it reads the stale
`episode_indices[-1] + 1` instead of starting at 0: on the Scenario C state
(`num_episodes = 2`, boundaries at 1 and 3) `sampleRecentEpisodes(2)`
reads positions `[1, 2]` and returns `[2, 3]` — a partial tail of the
first episode and a partial head of the second — not the complete
episodes `[1, 2, 3, 4]` at positions `[0, 1, 2, 3]`. -/
theorem C5_episode_window : episodeIndicesRange bufC 2 = [1, 2] ∧
    (computation_get_episodes bufC 2).lookup "value" = some [2, 3] ∧
    (computation_get_episodes bufC 2).lookup "value" ≠ some [1, 2, 3, 4] := by decide

/-- C6: calling `sampleRecentEpisodes` on a buffer constructed without
episode semantics fails with `EpisodeTrackingDisabledError` and hands the
state back unchanged. -/
theorem C6_episode_tracking_disabled (st : RingBuffer) (k : Nat)
    (h : st.episode_semantics = false) :
    sampleRecentEpisodes st k = (Except.error MemError.EpisodeTrackingDisabled, st) := by
  simp [sampleRecentEpisodes, h]

/-- Witness for C6: Scenario E on a fresh buffer without episode
semantics, `k = 1`. -/
theorem C6_witness : (freshBuf schemaVT 5 false).episode_semantics = false ∧
    sampleRecentEpisodes (freshBuf schemaVT 5 false) 1 =
      (Except.error MemError.EpisodeTrackingDisabled, freshBuf schemaVT 5 false) :=
  ⟨rfl, C6_episode_tracking_disabled (freshBuf schemaVT 5 false) 1 rfl⟩

/-- C7: an insert batch that omits a declared schema field, or whose
fields do not all share one leading length, fails with
`SchemaMismatchError` and leaves every part of the state unchanged. -/
theorem C7_schema_mismatch_no_effect (schema : List String) (st : RingBuffer)
    (records : Fields)
    (h : (∃ f ∈ schema, records.lookup f = none) ∨ sameLeadingLength records = false) :
    insertChecked schema st records = (Except.error MemError.SchemaMismatch, st) := by
  have hc : schemaCheck schema records = false := by
    rcases h with ⟨f, hf, hnone⟩ | hlen
    · have : schema.all (fun f => (records.lookup f).isSome) = false := by
        rcases hall : schema.all (fun f => (records.lookup f).isSome) with _ | _
        · rfl
        · have := (List.all_eq_true.mp hall) f hf
          rw [hnone] at this
          simp at this
      simp [schemaCheck, this]
    · simp [schemaCheck, hlen]
  simp [insertChecked, hc]

/-- Witness for C7: a batch that omits the declared `terminal` field is
rejected without touching a fresh buffer. -/
theorem C7_witness :
    (∃ f ∈ schemaVT, List.lookup f [("value", [1, 2])] = none) ∧
    insertChecked schemaVT (freshBuf schemaVT 5 false) [("value", [1, 2])] =
      (Except.error MemError.SchemaMismatch, freshBuf schemaVT 5 false) :=
  ⟨by decide, C7_schema_mismatch_no_effect schemaVT (freshBuf schemaVT 5 false)
    [("value", [1, 2])] (Or.inl (by decide))⟩

/-- C9: the read operations — `sampleRecent`, the episode query (both the
raw computation and the guarded wrapper) and `read_records`/gather — hand
back exactly the state they were given: the source bodies perform only
`read_variable` calls, never an assign or scatter. -/
theorem C9_reads_pure (st : RingBuffer) (n k : Nat) (indices : List Nat) :
    (getRecordsOp st n).2 = st ∧ (getEpisodesOp st k).2 = st ∧
    (gatherOp st indices).2 = st ∧ (sampleRecentEpisodes st k).2 = st := by
  refine ⟨rfl, rfl, rfl, ?_⟩
  unfold sampleRecentEpisodes
  split <;> rfl

/-- C10: every storage position touched by an insert's scatter-write and
every position read by the two sample computations is taken modulo the
capacity and so lies in `[0, capacity)`. -/
theorem C10_index_bounds (st : RingBuffer) (hC : 0 < st.capacity) (n b k : Nat) :
    (∀ i ∈ updateIndices st n, i < st.capacity) ∧
    (∀ i ∈ recordIndices st b, i < st.capacity) ∧
    (∀ i ∈ episodeIndicesRange st k, i < st.capacity) := by
  refine ⟨?_, ?_, ?_⟩
  · intro i hi
    simp only [updateIndices, List.mem_map] at hi
    obtain ⟨j, -, rfl⟩ := hi
    exact Nat.mod_lt _ hC
  · exact modIndices_lt st.capacity hC _
  · exact modIndices_lt st.capacity hC _

/-- Witness for C10 on the Scenario C buffer, with a batch longer than the
capacity. -/
theorem C10_witness : 0 < bufC.capacity ∧
    ((∀ i ∈ updateIndices bufC 6, i < bufC.capacity) ∧
     (∀ i ∈ recordIndices bufC 3, i < bufC.capacity) ∧
     (∀ i ∈ episodeIndicesRange bufC 2, i < bufC.capacity)) :=
  ⟨by decide, C10_index_bounds bufC (by decide) 6 3 2⟩

end RingBufferModel
